import Mathlib

/-!
Shallow embedding of the scraper core of `src/server.js`: the email-cleaning and
CSV-writing helpers, the Site Prober (`scrapeEmails`), the contact-page fallback
(`scrapeContactPages`) and the record loop with cooperative cancellation
(`scrapeWebsites`).  External effects (the browser, the filesystem, the
WebSocket broadcaster) are modelled by explicit inputs and by output lists: the
matched-output file is the list of rows appended after the header, the
unmatched-output file the list of appended lines, progress the list of
`sendProgress` messages, and the probe is a function from a URL to the email
list `scrapeEmails` would return for it.

The JavaScript string primitives (`split`, `trim`, `replace`, `startsWith`,
`includes`) are modelled by structurally recursive functions over the
character list of a `String`, so that every definition evaluates by kernel
reduction on concrete inputs.
-/

namespace ScraperApp

/-- Split a character list on the nonempty separator `s0 :: srest`, JS
`String.prototype.split` style: non-overlapping occurrences scanned from the
left, empty pieces kept.  `fuel` bounds the recursion; with `fuel ≥ l.length`
(as `splitOnChars` supplies) the bound is never hit. -/
def splitOnCharsFuel (s0 : Char) (srest : List Char) : Nat → List Char → List (List Char)
  | _, [] => [[]]
  | 0, l => [l]
  | fuel + 1, c :: cs =>
    if (s0 :: srest).isPrefixOf (c :: cs) then
      [] :: splitOnCharsFuel s0 srest fuel (cs.drop srest.length)
    else
      match splitOnCharsFuel s0 srest fuel cs with
      | [] => [[c]]
      | h :: t => (c :: h) :: t

/-- Split a character list on the nonempty separator `s0 :: srest`. -/
def splitOnChars (s0 : Char) (srest : List Char) (l : List Char) : List (List Char) :=
  splitOnCharsFuel s0 srest l.length l

/-- JS `s.split(pat)` for a nonempty string pattern; never returns an empty
list.  (The sources only split on `"?"`, `"://"`, `"/"` and `","`.) -/
def jsSplitOn (s pat : String) : List String :=
  match pat.data with
  | [] => [s]
  | p0 :: ps => (splitOnChars p0 ps s.data).map String.mk

/-- Whitespace removal at both ends of a character list. -/
def trimChars (l : List Char) : List Char :=
  ((l.dropWhile Char.isWhitespace).reverse.dropWhile Char.isWhitespace).reverse

/-- JS `s.trim()`. -/
def jsTrim (s : String) : String :=
  String.mk (trimChars s.data)

/-- JavaScript `String.prototype.replace` with a string (non-regex) pattern
replaces only the first occurrence of the pattern.  `jsReplaceFirst s pat repl`
models `s.replace(pat, repl)` for a nonempty `pat`. -/
def jsReplaceFirst (s pat repl : String) : String :=
  match jsSplitOn s pat with
  | [] => s
  | [_] => s
  | x :: rest => x ++ repl ++ String.intercalate pat rest

/-- Model of `const cleanEmail = (email) => email.split("?")[0].trim();`
(src/server.js:69).  JS `split` never returns an empty array, so indexing `[0]`
is total; `jsSplitOn` likewise never returns `[]`, so the `headD ""` default is
never used. -/
def cleanEmail (email : String) : String :=
  jsTrim ((jsSplitOn email "?").headD "")

/-- `[...new Set(xs)]` in JS: deduplicate keeping the first occurrence of each
element, in insertion order.  `seen` accumulates the elements already kept. -/
def jsSetDedupAux (seen : List String) : List String → List String
  | [] => []
  | x :: xs =>
    if x ∈ seen then jsSetDedupAux seen xs
    else x :: jsSetDedupAux (x :: seen) xs

/-- `[...new Set(l)]` (src/server.js:114). -/
def jsSetDedup (l : List String) : List String :=
  jsSetDedupAux [] l

/-- A parsed absolute URL, reduced to the parts the scraper reads: scheme,
hostname and path.  (The source uses the WHATWG `URL` class; query strings,
ports, credentials and percent-encoding play no role in any code path modelled
here.) -/
structure Url where
  scheme : String
  host : String
  path : String
deriving DecidableEq

/-- Model of `new URL(s)` on an absolute-URL string: the string must have the
shape `<scheme>://<host>[/<path>]` with a nonempty alphabetic scheme and a
nonempty host; any other string makes the constructor throw, modelled by
`none`. -/
def parseUrl (s : String) : Option Url :=
  match jsSplitOn s "://" with
  | [sch, rest] =>
    if sch.data.isEmpty ∨ ¬ sch.data.all Char.isAlpha ∨ rest.data.isEmpty then none
    else
      match jsSplitOn rest "/" with
      | [] => none
      | host :: segs =>
        if host.data.isEmpty then none
        else some ⟨sch, host,
          if segs.isEmpty then "/" else "/" ++ String.intercalate "/" segs⟩
  | _ => none

/-- Model of `new URL(p, base).href` for a candidate path `p` beginning with
`"/"`: standard URL resolution replaces the base's path by `p`
(src/server.js:131). -/
def resolveUrl (base : Url) (p : String) : String :=
  base.scheme ++ "://" ++ base.host ++ p

/-- Model of the `page.evaluate` body (src/server.js:109-112): the `href`
values of the anchors matched by the selector for hrefs starting with the
mailto scheme, each with the first occurrence of `"mailto:"` removed (JS
`replace` with a string pattern) and trimmed. -/
def extractMailtos (anchors : List String) : List String :=
  (anchors.filter (fun a => "mailto:".data.isPrefixOf a.data)).map
    (fun a => jsTrim (jsReplaceFirst a "mailto:" ""))

/-- One page-load attempt as the Site Prober observes the browser-automation
layer: each awaited step either succeeds or throws, and `anchors` is the list
of anchor `href` values of the successfully loaded document. -/
structure BrowserEnv where
  newPageFails : Bool
  gotoFails : Bool
  evalFails : Bool
  closeFails : Bool
  anchors : List String
deriving DecidableEq

/-- Model of `scrapeEmails` (src/server.js:96-121).  Returns the email list
together with whether `page.close()` completed.  Every `try`/`catch` of the
source is a branch here; the return type being a plain pair rather than
`Except` reflects that the function catches everything and never throws to its
caller.  The `catch` branches return the value the mutable `emails` variable
holds at the moment of the throw. -/
def scrapeEmails (env : BrowserEnv) : List String × Bool :=
  if env.newPageFails then ([], false)
  else if env.gotoFails then
    if env.closeFails then ([], false) else ([], true)
  else if env.evalFails then ([], false)
  else
    let es := jsSetDedup (extractMailtos env.anchors)
    if env.closeFails then (es, false) else (es, true)

/-- The fixed ordered candidate-path list of `scrapeContactPages`
(src/server.js:125-128). -/
def contactPaths : List String :=
  ["/contact", "/contactus", "/contact-us", "/support", "/help",
   "/customer-service", "/get-in-touch", "/reach-us", "/about", "/about-us"]

/-- The loop of `scrapeContactPages` (src/server.js:130-134) over the remaining
candidate paths.  `probe` models `scrapeEmails(url, browser)` as a function of
the resolved URL.  Returns `none` when `new URL(path, mainUrl)` throws (an
unparseable `mainUrl`), otherwise the returned email list together with the
trace of URLs probed, in order. -/
def scrapeContactPagesAux (probe : String → List String) (mainUrl : String) :
    List String → Option (List String × List String)
  | [] => some ([], [])
  | p :: rest =>
    match parseUrl mainUrl with
    | none => none
    | some base =>
      let u := resolveUrl base p
      let es := probe u
      if es.isEmpty then
        match scrapeContactPagesAux probe mainUrl rest with
        | none => none
        | some (res, tr) => some (res, u :: tr)
      else
        some (es, [u])

/-- Model of `scrapeContactPages` (src/server.js:124-135). -/
def scrapeContactPages (probe : String → List String) (mainUrl : String) :
    Option (List String × List String) :=
  scrapeContactPagesAux probe mainUrl contactPaths

/-- One input CSV row, restricted to the fields the scraper reads.  A `none`
field models a column absent from the row (JS `undefined`). -/
structure Record where
  businessName : Option String := none
  category : Option String := none
  address : Option String := none
  postalCode : Option String := none
  phoneNumber : Option String := none
  website : Option String := none
deriving DecidableEq

/-- One row appended to the matched-output CSV.  `csv-stringify` renders an
absent (`undefined`) field as an empty cell, modelled by `Option.getD ""` at
construction. -/
structure EmailRow where
  businessName : String
  category : String
  address : String
  postalCode : String
  phoneNumber : String
  website : String
  email : String
deriving DecidableEq

/-- `record["Address"] || "No"` (src/server.js:78): JS `||` yields the right
operand when the left is falsy, i.e. when the column is absent or holds the
empty string. -/
def addressOrNo (a : Option String) : String :=
  match a with
  | none => "No"
  | some s => if s.data.isEmpty then "No" else s

/-- Model of `writeEmailToCSV` (src/server.js:72-88): the list of rows appended
to the matched-output file for one record and one raw email list — empty when
every cleaned address fails the `includes("@")` filter, in which case the file
is not touched. -/
def writeEmailToCSV (record : Record) (emails : List String) : List EmailRow :=
  let cleanedEmails := (emails.map cleanEmail).filter (fun e => e.data.contains '@')
  cleanedEmails.map (fun email =>
    { businessName := record.businessName.getD ""
      category := record.category.getD ""
      address := addressOrNo record.address
      postalCode := record.postalCode.getD ""
      phoneNumber := record.phoneNumber.getD ""
      website := record.website.getD ""
      email := email })

/-- The header line written when the matched-output file is created
(src/server.js:149). -/
def matchedHeader : String :=
  "Business Name,Category,Address,Postal Code,Phone Number,Website,Email"

/-- The cells of one matched row in the order `csv-stringify` serializes them:
the insertion order of the object keys at src/server.js:75-83. -/
def rowFields (r : EmailRow) : List String :=
  [r.businessName, r.category, r.address, r.postalCode, r.phoneNumber, r.website, r.email]

/-- `record["Website"]?.trim()` followed by the `if (!site) continue` check
(src/server.js:155-156): `none` when the column is absent or the value is blank
after trimming, otherwise the trimmed site string. -/
def siteOf (r : Record) : Option String :=
  match r.website with
  | none => none
  | some s =>
    let t := jsTrim s
    if t.data.isEmpty then none else some t

/-- The outputs and observable events of one `scrapeWebsites` run.  `matched`
holds the matched-output rows appended after the header, `notFound` the
unmatched-output lines, `progress` the `sendProgress` messages in order,
`probed` the URLs handed to the main-page probe at src/server.js:161 and to the
fallback probes, in order.  `isScraping` is the flag's value when the function
ends; `aborted` records that an uncaught exception escaped the loop. -/
structure RunOutput where
  matched : List EmailRow
  notFound : List String
  progress : List String
  probed : List String
  isScraping : Bool
  aborted : Bool
deriving DecidableEq

/-- The loop's accumulated outputs so far. -/
structure RunAcc where
  matched : List EmailRow := []
  notFound : List String := []
  progress : List String := []
  probed : List String := []
deriving DecidableEq

/-- The cancellation schedule models the external `/stop` request
(src/server.js:187-191): `some k` means `isScraping` is set to `false` after
record index `k` is fully processed and before the check at the top of
iteration `k + 1`; `none` means no stop request arrives.  `stopped sa i` is the
value of `!isScraping` read at the top of iteration `i` (src/server.js:152). -/
def stopped (stopAfter : Option Nat) (i : Nat) : Bool :=
  match stopAfter with
  | none => false
  | some k => decide (k < i)

/-- The progress message of src/server.js:159. -/
def progressMsg (site : String) (i total : Nat) : String :=
  "Scraping: " ++ site ++ " (" ++ toString (i + 1) ++ "/" ++ toString total ++ ")"

/-- Normal loop termination, by exhaustion or observed cancellation:
src/server.js:171-173 set the flag to false and emit the completion event. -/
def finishRun (acc : RunAcc) : RunOutput :=
  ⟨acc.matched, acc.notFound, acc.progress ++ ["Scraping complete."], acc.probed, false, false⟩

/-- An exception escaping the loop — the uncaught `new URL(site)` of
src/server.js:158.  Lines 171-173 never run: the flag stays true and no
completion event is emitted. -/
def abortRun (acc : RunAcc) : RunOutput :=
  ⟨acc.matched, acc.notFound, acc.progress, acc.probed, true, true⟩

/-- The body of one loop iteration of `scrapeWebsites` for record `r` at index
`i` (src/server.js:154-168), after the `isScraping` check.  `.error` models an
uncaught exception carrying the outputs accumulated at the moment of the throw;
`.ok` the accumulator to continue with. -/
def processRecord (probe : String → List String) (total i : Nat) (r : Record)
    (acc : RunAcc) : Except RunAcc RunAcc :=
  match siteOf r with
  | none => .ok acc
  | some site =>
    match parseUrl site with
    | none => .error acc
    | some u =>
      let domain := jsReplaceFirst u.host "www." ""
      let acc1 : RunAcc :=
        { acc with
          progress := acc.progress ++ [progressMsg site i total]
          probed := acc.probed ++ [site] }
      let es0 := probe site
      if es0.isEmpty then
        match scrapeContactPages probe site with
        | none => .error acc1
        | some (es1, tr) =>
          let acc2 : RunAcc := { acc1 with probed := acc1.probed ++ tr }
          if es1.isEmpty then
            .ok { acc2 with notFound := acc2.notFound ++ [domain] }
          else
            .ok { acc2 with matched := acc2.matched ++ writeEmailToCSV r es1 }
      else
        .ok { acc1 with matched := acc1.matched ++ writeEmailToCSV r es0 }

/-- The record loop of `scrapeWebsites` (src/server.js:151-169) from iteration
index `i` on the remaining records, followed by the epilogue of
src/server.js:171-173. -/
def runLoop (probe : String → List String) (total : Nat) (stopAfter : Option Nat) :
    Nat → List Record → RunAcc → RunOutput
  | _, [], acc => finishRun acc
  | i, r :: rest, acc =>
    if stopped stopAfter i then finishRun acc
    else
      match processRecord probe total i r acc with
      | .error acc2 => abortRun acc2
      | .ok acc2 => runLoop probe total stopAfter (i + 1) rest acc2

/-- Model of `scrapeWebsites` (src/server.js:138-174): the header is written,
then the loop runs from index 0 with empty accumulators; the progress total is
the full record count. -/
def scrapeWebsites (probe : String → List String) (records : List Record)
    (stopAfter : Option Nat) : RunOutput :=
  runLoop probe records.length stopAfter 0 records {}

/-! ### Helper lemmas -/

theorem jsSetDedupAux_mem (y : String) :
    ∀ (l seen : List String), y ∈ jsSetDedupAux seen l ↔ y ∈ l ∧ y ∉ seen := by
  intro l
  induction l with
  | nil => intro seen; simp [jsSetDedupAux]
  | cons x xs ih =>
    intro seen
    by_cases hx : x ∈ seen
    · rw [jsSetDedupAux, if_pos hx, ih seen]
      constructor
      · rintro ⟨hy, hs⟩; exact ⟨List.mem_cons_of_mem _ hy, hs⟩
      · rintro ⟨hy, hs⟩
        rcases List.mem_cons.mp hy with hy | hy
        · subst hy; exact absurd hx hs
        · exact ⟨hy, hs⟩
    · rw [jsSetDedupAux, if_neg hx]
      constructor
      · intro hmem
        rcases List.mem_cons.mp hmem with hy | hy
        · subst hy; exact ⟨List.mem_cons_self _ _, hx⟩
        · obtain ⟨h1, h2⟩ := (ih (x :: seen)).mp hy
          exact ⟨List.mem_cons_of_mem _ h1, fun hc => h2 (List.mem_cons_of_mem _ hc)⟩
      · rintro ⟨hy, hs⟩
        rcases List.mem_cons.mp hy with hy | hy
        · subst hy; exact List.mem_cons_self _ _
        · by_cases hxy : y = x
          · subst hxy; exact List.mem_cons_self _ _
          · exact List.mem_cons_of_mem _ ((ih (x :: seen)).mpr
              ⟨hy, by simp [hxy, hs]⟩)

theorem jsSetDedupAux_nodup :
    ∀ (l seen : List String), (jsSetDedupAux seen l).Nodup := by
  intro l
  induction l with
  | nil => intro seen; simp [jsSetDedupAux]
  | cons x xs ih =>
    intro seen
    by_cases hx : x ∈ seen
    · rw [jsSetDedupAux, if_pos hx]; exact ih seen
    · rw [jsSetDedupAux, if_neg hx]
      refine List.nodup_cons.mpr ⟨?_, ih (x :: seen)⟩
      intro hmem
      exact ((jsSetDedupAux_mem x xs (x :: seen)).mp hmem).2 (List.mem_cons_self _ _)

theorem jsSetDedup_nodup (l : List String) : (jsSetDedup l).Nodup :=
  jsSetDedupAux_nodup l []

theorem jsSetDedup_mem (y : String) (l : List String) : y ∈ jsSetDedup l ↔ y ∈ l := by
  rw [jsSetDedup, jsSetDedupAux_mem]
  simp

theorem jsReplaceFirst_no_occurrence (s pat repl : String) (h : jsSplitOn s pat = [s]) :
    jsReplaceFirst s pat repl = s := by
  simp [jsReplaceFirst, h]

theorem stopped_succ {stopAfter : Option Nat} {i : Nat} (h : stopped stopAfter i = true) :
    stopped stopAfter (i + 1) = true := by
  cases stopAfter with
  | none => simp [stopped] at h
  | some k =>
    simp only [stopped, decide_eq_true_eq] at h ⊢
    omega

theorem runLoop_finish_of_stopped (probe : String → List String) (total : Nat)
    {stopAfter : Option Nat} {i : Nat} (h : stopped stopAfter i = true)
    (l : List Record) (acc : RunAcc) :
    runLoop probe total stopAfter i l acc = finishRun acc := by
  cases l with
  | nil => rfl
  | cons r rest => simp [runLoop, h]

/-! ### Claim theorems -/

/-- Claim C1 (evidence of the code bug): on a record whose website string is
not a well-formed absolute URL, `new URL(site)` at src/server.js:158 throws
outside any try/catch, so the run aborts: no line is appended to the unmatched
output, no progress event is emitted, `isScraping` stays true and the
completion event never fires — for every probe behaviour.  The spec instead
requires the failure to be caught per record, the raw site string appended to
the unmatched sink, and the loop to continue. -/
theorem malformedUrl_aborts_run :
    ∀ probe : String → List String,
      scrapeWebsites probe [{ website := some "not a url" }] none =
        ⟨[], [], [], [], true, true⟩ := by
  intro probe
  rfl

/-- Claim C10: deduplication happens on the raw extracted addresses, before
query-stripping.  Two anchors differing only in their query suffix both survive
`[...new Set(...)]` inside `scrapeEmails`, and `writeEmailToCSV` then produces
two identical rows for the same record and cleaned address. -/
theorem dedup_before_cleaning_duplicate_rows :
    scrapeEmails ⟨false, false, false, false, ["mailto:a@x?s=1", "mailto:a@x?s=2"]⟩ =
      (["a@x?s=1", "a@x?s=2"], true) ∧
    writeEmailToCSV { website := some "https://d.example" } ["a@x?s=1", "a@x?s=2"] =
      [⟨"", "", "No", "", "", "https://d.example", "a@x"⟩,
       ⟨"", "", "No", "", "", "https://d.example", "a@x"⟩] ∧
    ("a@x?s=1" : String) ≠ "a@x?s=2" ∧
    cleanEmail "a@x?s=1" = cleanEmail "a@x?s=2" := by
  refine ⟨by decide, by decide, by decide, by decide⟩

/-- Claim C5 counterexample: `hostname.replace("www.", "")` at src/server.js:158
removes the first occurrence of `"www."` anywhere in the hostname, not only a
leading prefix.  The hostname `a.www.example` does not begin with `"www."`, yet
the unmatched line written for it is `a.example`, not the unchanged hostname. -/
theorem unmatched_domain_leading_strip_cex :
    (scrapeWebsites (fun _ => []) [{ website := some "https://a.www.example" }] none).notFound =
      ["a.example"] ∧
    "www.".data.isPrefixOf "a.www.example".data = false ∧
    (parseUrl "https://a.www.example").map Url.host = some "a.www.example" ∧
    ("a.example" : String) ≠ "a.www.example" := by
  refine ⟨by decide, by decide, by decide, by decide⟩

/-- Claim C6 counterexample: `record["Address"] || "No"` at src/server.js:78
replaces an empty Address field by the string `"No"`, so the matched row does
not preserve the record's Address value exactly as read from the input. -/
theorem matched_row_metadata_cex :
    (writeEmailToCSV { address := some "", website := some "https://w.example" } ["e@x"]).map
        EmailRow.address = ["No"] ∧
    ("No" : String) ≠ "" := by
  refine ⟨by decide, by decide⟩

/-- Claim C8: the Site Prober never fails outward (the model's return type is a
plain pair — every `catch` of src/server.js:96-121 is a branch, so no exception
escapes).  On navigation failure it closes the page and returns the empty list;
on success it returns the extracted addresses deduplicated with set semantics:
the result equals `jsSetDedup` of the extraction, contains exactly the
extracted addresses, and holds no duplicates. -/
theorem scrapeEmails_never_fails (env : BrowserEnv) :
    (env.newPageFails = false → env.gotoFails = true → env.closeFails = false →
      scrapeEmails env = ([], true)) ∧
    (env.newPageFails = false → env.gotoFails = false → env.evalFails = false →
      (scrapeEmails env).1 = jsSetDedup (extractMailtos env.anchors) ∧
        ∀ e, e ∈ (scrapeEmails env).1 ↔ e ∈ extractMailtos env.anchors) ∧
    (scrapeEmails env).1.Nodup := by
  obtain ⟨np, gf, ef, cf, anchors⟩ := env
  refine ⟨?_, ?_, ?_⟩ <;> cases np <;> cases gf <;> cases ef <;> cases cf <;>
    simp [scrapeEmails, jsSetDedup_mem, jsSetDedup_nodup]

/-- Witness for C8: a navigation failure with a successful `page.close()`
returns the empty list with the page closed. -/
theorem scrapeEmails_never_fails_witness :
    scrapeEmails ⟨false, true, false, false, []⟩ = ([], true) :=
  (scrapeEmails_never_fails ⟨false, true, false, false, []⟩).1 rfl rfl rfl

theorem scrapeContactPagesAux_all_empty (probe : String → List String) (mainUrl : String)
    (base : Url) (hb : parseUrl mainUrl = some base) :
    ∀ paths : List String, (∀ p ∈ paths, probe (resolveUrl base p) = []) →
      scrapeContactPagesAux probe mainUrl paths = some ([], paths.map (resolveUrl base)) := by
  intro paths
  induction paths with
  | nil => intro _; rfl
  | cons p rest ih =>
    intro h
    have hp : probe (resolveUrl base p) = [] := h p (List.mem_cons_self _ _)
    have hrest := ih (fun q hq => h q (List.mem_cons_of_mem _ hq))
    simp [scrapeContactPagesAux, hb, hp, hrest]

theorem scrapeContactPagesAux_first_success (probe : String → List String) (mainUrl : String)
    (base : Url) (hb : parseUrl mainUrl = some base) (p : String) (post : List String)
    (hp : probe (resolveUrl base p) ≠ []) :
    ∀ pre : List String, (∀ q ∈ pre, probe (resolveUrl base q) = []) →
      scrapeContactPagesAux probe mainUrl (pre ++ p :: post) =
        some (probe (resolveUrl base p), (pre ++ [p]).map (resolveUrl base)) := by
  intro pre
  induction pre with
  | nil =>
    intro _
    have hne : (probe (resolveUrl base p)).isEmpty = false := by
      simpa [List.isEmpty_iff] using hp
    simp [scrapeContactPagesAux, hb, hne]
  | cons q rest ih =>
    intro h
    have hq : probe (resolveUrl base q) = [] := h q (List.mem_cons_self _ _)
    have hrest := ih (fun x hx => h x (List.mem_cons_of_mem _ hx))
    simp [scrapeContactPagesAux, hb, hq, hrest]

/-- Claim C4: the contact-page fallback probes the fixed ordered path list
resolved against the base URL, in order; it returns the result of the first
path with a non-empty address list without probing any later path (the probe
trace is exactly the resolved prefix up to the first success), and returns the
empty list — having probed every path — when all paths yield nothing. -/
theorem scrapeContactPages_first_success (probe : String → List String) (mainUrl : String)
    (base : Url) (hb : parseUrl mainUrl = some base) :
    (∀ pre p post, contactPaths = pre ++ p :: post →
      (∀ q ∈ pre, probe (resolveUrl base q) = []) →
      probe (resolveUrl base p) ≠ [] →
      scrapeContactPages probe mainUrl =
        some (probe (resolveUrl base p), (pre ++ [p]).map (resolveUrl base))) ∧
    ((∀ p ∈ contactPaths, probe (resolveUrl base p) = []) →
      scrapeContactPages probe mainUrl = some ([], contactPaths.map (resolveUrl base))) := by
  constructor
  · intro pre p post hsplit hpre hp
    rw [scrapeContactPages, hsplit]
    exact scrapeContactPagesAux_first_success probe mainUrl base hb p post hp pre hpre
  · intro h
    rw [scrapeContactPages]
    exact scrapeContactPagesAux_all_empty probe mainUrl base hb contactPaths h

/-- Witness for C4, the spec's own test scenario: the main page and the first
two candidate paths yield nothing, the third (`/contact-us`) yields an address;
the fallback returns that result having probed exactly the first three resolved
URLs. -/
theorem scrapeContactPages_first_success_witness :
    scrapeContactPages
        (fun u => if u = "https://x.example/contact-us" then ["a@b.c"] else [])
        "https://x.example" =
      some (["a@b.c"],
        ["https://x.example/contact", "https://x.example/contactus",
         "https://x.example/contact-us"]) := by
  have h := (scrapeContactPages_first_success
      (fun u => if u = "https://x.example/contact-us" then ["a@b.c"] else [])
      "https://x.example" ⟨"https", "x.example", "/"⟩ (by decide)).1
    ["/contact", "/contactus"] "/contact-us"
    ["/support", "/help", "/customer-service", "/get-in-touch", "/reach-us", "/about", "/about-us"]
    (by decide) (by decide) (by decide)
  rw [h]
  decide

/-- Claim C7: a record whose Website field is missing or blank after trimming
is skipped silently: the loop step on it equals the loop on the remaining
records with the same accumulated outputs — no matched row, no unmatched line,
no progress event and no probe is produced for it. -/
theorem blank_website_skipped (probe : String → List String) (total : Nat)
    (stopAfter : Option Nat) (i : Nat) (r : Record) (rest : List Record) (acc : RunAcc)
    (h : r.website = none ∨ ∃ s, r.website = some s ∧ jsTrim s = "") :
    runLoop probe total stopAfter i (r :: rest) acc =
      runLoop probe total stopAfter (i + 1) rest acc := by
  have hsite : siteOf r = none := by
    rcases h with h | ⟨s, hs, ht⟩
    · simp [siteOf, h]
    · simp [siteOf, hs, ht]
  by_cases hstop : stopped stopAfter i = true
  · rw [runLoop_finish_of_stopped probe total hstop,
      runLoop_finish_of_stopped probe total (stopped_succ hstop)]
  · have hstop' : stopped stopAfter i = false := by
      simpa using hstop
    simp [runLoop, hstop', processRecord, hsite]

/-- Witness for C7: a record whose Website is whitespace-only is skipped. -/
theorem blank_website_skipped_witness :
    runLoop (fun _ => []) 1 none 0 [{ website := some "   " }] {} =
      runLoop (fun _ => []) 1 none 1 [] {} :=
  blank_website_skipped (fun _ => []) 1 none 0 { website := some "   " } [] {}
    (Or.inr ⟨"   ", rfl, by decide⟩)

theorem processRecord_out (probe : String → List String) (total i : Nat) (r : Record)
    (acc acc2 : RunAcc)
    (h : processRecord probe total i r acc = .ok acc2 ∨
      processRecord probe total i r acc = .error acc2) :
    (acc2.matched = acc.matched ∨ ∃ es, acc2.matched = acc.matched ++ writeEmailToCSV r es) ∧
    (acc2.notFound = acc.notFound ∨
      ∃ site u, siteOf r = some site ∧ parseUrl site = some u ∧
        acc2.notFound = acc.notFound ++ [jsReplaceFirst u.host "www." ""]) := by
  cases hs : siteOf r with
  | none =>
    rcases h with h | h
    · simp only [processRecord, hs, Except.ok.injEq] at h
      subst h
      exact ⟨Or.inl rfl, Or.inl rfl⟩
    · simp [processRecord, hs] at h
  | some site =>
    cases hp : parseUrl site with
    | none =>
      rcases h with h | h
      · simp [processRecord, hs, hp] at h
      · simp only [processRecord, hs, hp, Except.error.injEq] at h
        subst h
        exact ⟨Or.inl rfl, Or.inl rfl⟩
    | some u =>
      cases he0 : (probe site).isEmpty with
      | false =>
        rcases h with h | h
        · simp only [processRecord, hs, hp, he0, Bool.false_eq_true, if_false,
            Except.ok.injEq] at h
          subst h
          exact ⟨Or.inr ⟨probe site, rfl⟩, Or.inl rfl⟩
        · simp [processRecord, hs, hp, he0] at h
      | true =>
        cases hc : scrapeContactPages probe site with
        | none =>
          rcases h with h | h
          · simp [processRecord, hs, hp, he0, hc] at h
          · simp only [processRecord, hs, hp, he0, if_true, hc, Except.error.injEq] at h
            subst h
            exact ⟨Or.inl rfl, Or.inl rfl⟩
        | some pr =>
          obtain ⟨es1, tr⟩ := pr
          cases he1 : es1.isEmpty with
          | true =>
            rcases h with h | h
            · simp only [processRecord, hs, hp, he0, if_true, hc, he1,
                Except.ok.injEq] at h
              subst h
              exact ⟨Or.inl rfl, Or.inr ⟨site, u, rfl, hp, rfl⟩⟩
            · simp [processRecord, hs, hp, he0, hc, he1] at h
          | false =>
            rcases h with h | h
            · simp only [processRecord, hs, hp, he0, if_true, hc, he1,
                Bool.false_eq_true, if_false, Except.ok.injEq] at h
              subst h
              exact ⟨Or.inr ⟨es1, rfl⟩, Or.inl rfl⟩
            · simp [processRecord, hs, hp, he0, hc, he1] at h

theorem runLoop_out_inv (probe : String → List String) (total : Nat) (stopAfter : Option Nat) :
    ∀ (l : List Record) (i : Nat) (acc : RunAcc),
      (∀ row ∈ (runLoop probe total stopAfter i l acc).matched,
        row ∈ acc.matched ∨ ∃ r ∈ l, ∃ es, row ∈ writeEmailToCSV r es) ∧
      (∀ d ∈ (runLoop probe total stopAfter i l acc).notFound,
        d ∈ acc.notFound ∨ ∃ r ∈ l, ∃ site u, siteOf r = some site ∧ parseUrl site = some u ∧
          d = jsReplaceFirst u.host "www." "") := by
  intro l
  induction l with
  | nil =>
    intro i acc
    constructor
    · intro row hrow; exact Or.inl hrow
    · intro d hd; exact Or.inl hd
  | cons r rest ih =>
    intro i acc
    by_cases hstop : stopped stopAfter i = true
    · rw [runLoop_finish_of_stopped probe total hstop]
      constructor
      · intro row hrow; exact Or.inl hrow
      · intro d hd; exact Or.inl hd
    · have hstop' : stopped stopAfter i = false := by simpa using hstop
      cases hpr : processRecord probe total i r acc with
      | error acc2 =>
        have hout := processRecord_out probe total i r acc acc2 (Or.inr hpr)
        have hrw : runLoop probe total stopAfter i (r :: rest) acc = abortRun acc2 := by
          simp [runLoop, hstop', hpr]
        rw [hrw]
        constructor
        · intro row hrow
          rcases hout.1 with h | ⟨es, hes⟩
          · exact Or.inl (h ▸ hrow)
          · rw [show (abortRun acc2).matched = acc2.matched from rfl, hes] at hrow
            rcases List.mem_append.mp hrow with h | h
            · exact Or.inl h
            · exact Or.inr ⟨r, List.mem_cons_self _ _, es, h⟩
        · intro d hd
          rcases hout.2 with h | ⟨site, u, h1, h2, h3⟩
          · exact Or.inl (h ▸ hd)
          · rw [show (abortRun acc2).notFound = acc2.notFound from rfl, h3] at hd
            rcases List.mem_append.mp hd with h | h
            · exact Or.inl h
            · exact Or.inr ⟨r, List.mem_cons_self _ _, site, u, h1, h2, by simpa using h⟩
      | ok acc2 =>
        have hout := processRecord_out probe total i r acc acc2 (Or.inl hpr)
        have hrw : runLoop probe total stopAfter i (r :: rest) acc =
            runLoop probe total stopAfter (i + 1) rest acc2 := by
          simp [runLoop, hstop', hpr]
        rw [hrw]
        have ihr := ih (i + 1) acc2
        constructor
        · intro row hrow
          rcases ihr.1 row hrow with h | ⟨r2, hr2, es, hes⟩
          · rcases hout.1 with h2 | ⟨es, hes⟩
            · exact Or.inl (h2 ▸ h)
            · rw [hes] at h
              rcases List.mem_append.mp h with h3 | h3
              · exact Or.inl h3
              · exact Or.inr ⟨r, List.mem_cons_self _ _, es, h3⟩
          · exact Or.inr ⟨r2, List.mem_cons_of_mem _ hr2, es, hes⟩
        · intro d hd
          rcases ihr.2 d hd with h | ⟨r2, hr2, site, u, h1, h2, h3⟩
          · rcases hout.2 with h2 | ⟨site, u, hh1, hh2, hh3⟩
            · exact Or.inl (h2 ▸ h)
            · rw [hh3] at h
              rcases List.mem_append.mp h with h3 | h3
              · exact Or.inl h3
              · exact Or.inr ⟨r, List.mem_cons_self _ _, site, u, hh1, hh2, by simpa using h3⟩
          · exact Or.inr ⟨r2, List.mem_cons_of_mem _ hr2, site, u, h1, h2, h3⟩

theorem writeEmailToCSV_email_mem (record : Record) (es : List String) (row : EmailRow)
    (h : row ∈ writeEmailToCSV record es) :
    ∃ raw ∈ es, row.email = cleanEmail raw ∧ row.email.data.contains '@' = true := by
  simp only [writeEmailToCSV, List.mem_map, List.mem_filter] at h
  obtain ⟨e, ⟨he, hat⟩, hrow⟩ := h
  obtain ⟨raw, hraw, hclean⟩ := he
  subst hrow
  exact ⟨raw, hraw, hclean.symm, hclean ▸ hat⟩

/-- Claim C3: every address written to the matched output is the substring of
some raw extracted address before the first `?`, trimmed, and contains `@`; a
raw address whose cleaned form lacks `@` never yields a matched row. -/
theorem matched_email_clean_spec (probe : String → List String) (records : List Record)
    (stopAfter : Option Nat) :
    ∀ row ∈ (scrapeWebsites probe records stopAfter).matched,
      row.email.data.contains '@' = true ∧
      (∃ raw, row.email = jsTrim ((jsSplitOn raw "?").headD "")) ∧
      ∀ raw, (cleanEmail raw).data.contains '@' = false → row.email ≠ cleanEmail raw := by
  intro row hrow
  have hinv := (runLoop_out_inv probe records.length stopAfter records 0 {}).1 row hrow
  rcases hinv with h | ⟨r, _, es, hes⟩
  · simp at h
  · obtain ⟨raw, _, heq, hat⟩ := writeEmailToCSV_email_mem r es row hes
    refine ⟨hat, ⟨raw, heq⟩, ?_⟩
    intro raw2 hbad hcontra
    rw [hcontra] at hat
    rw [hat] at hbad
    exact Bool.noConfusion hbad

/-- A deterministic probe stub for the witnesses: the main page of `a.example`
carries one address with a query suffix. -/
def probeA : String → List String :=
  fun u => if u = "https://a.example" then ["Info@A.example?subject=hi"] else []

/-- The single matched row the run on `probeA` produces. -/
def rowA : EmailRow :=
  ⟨"", "", "No", "", "", "https://a.example", "Info@A.example"⟩

/-- Witness for C3, the spec's own scenario: the written address
`Info@A.example` (query stripped) contains `@`. -/
theorem matched_email_clean_spec_witness :
    rowA.email.data.contains '@' = true :=
  (matched_email_clean_spec probeA [{ website := some "https://a.example" }] none rowA
    (by decide)).1

/-- Claim C5 (amended): every line appended to the unmatched output is the
record's hostname with the first occurrence of the substring `"www."` removed —
anywhere in the hostname, not only as a leading prefix; a hostname in which
`"www."` does not occur at all is written unchanged. -/
theorem unmatched_domain_first_www (probe : String → List String) (records : List Record)
    (stopAfter : Option Nat) :
    ∀ d ∈ (scrapeWebsites probe records stopAfter).notFound,
      ∃ r ∈ records, ∃ site u, siteOf r = some site ∧ parseUrl site = some u ∧
        d = jsReplaceFirst u.host "www." "" ∧
        (jsSplitOn u.host "www." = [u.host] → d = u.host) := by
  intro d hd
  have hinv := (runLoop_out_inv probe records.length stopAfter records 0 {}).2 d hd
  rcases hinv with h | ⟨r, hr, site, u, h1, h2, h3⟩
  · simp at h
  · exact ⟨r, hr, site, u, h1, h2, h3,
      fun hno => h3.trans (jsReplaceFirst_no_occurrence _ _ _ hno)⟩

/-- Witness for C5: the run on `www.b.example` writes the unmatched line
`b.example`, which the theorem traces back to the record's hostname. -/
theorem unmatched_domain_first_www_witness :
    ∃ r ∈ [({ website := some "https://www.b.example" } : Record)],
      ∃ site u, siteOf r = some site ∧ parseUrl site = some u ∧
        "b.example" = jsReplaceFirst u.host "www." "" ∧
        (jsSplitOn u.host "www." = [u.host] → "b.example" = u.host) :=
  unmatched_domain_first_www (fun _ => []) [{ website := some "https://www.b.example" }] none
    "b.example" (by decide)

/-- Claim C9: when the probe yields a non-empty raw address list whose every
element, once cleaned, lacks `@`, the matched branch is taken yet writes
nothing: `writeEmailToCSV` filters out every address, and the loop step leaves
both outputs unchanged (only the progress event and the probe trace are
recorded), so the record appears in neither output. -/
theorem all_addresses_filtered_out_no_output (probe : String → List String) (total : Nat)
    (stopAfter : Option Nat) (i : Nat) (r : Record) (rest : List Record) (acc : RunAcc)
    (site : String) (u : Url) (hsite : siteOf r = some site) (hu : parseUrl site = some u)
    (hne : probe site ≠ [])
    (hbad : ∀ e ∈ probe site, (cleanEmail e).data.contains '@' = false)
    (hstop : stopped stopAfter i = false) :
    writeEmailToCSV r (probe site) = [] ∧
    runLoop probe total stopAfter i (r :: rest) acc =
      runLoop probe total stopAfter (i + 1) rest
        { acc with
          progress := acc.progress ++ [progressMsg site i total]
          probed := acc.probed ++ [site] } := by
  have hw : writeEmailToCSV r (probe site) = [] := by
    have hfil : ((probe site).map cleanEmail).filter (fun e => e.data.contains '@') = [] := by
      rw [List.filter_eq_nil_iff]
      intro a ha
      obtain ⟨e, he, hae⟩ := List.mem_map.mp ha
      rw [← hae, hbad e he]
      simp
    simp only [writeEmailToCSV]
    rw [hfil]
    rfl
  refine ⟨hw, ?_⟩
  have hne' : (probe site).isEmpty = false := by
    simpa [List.isEmpty_iff] using hne
  simp [runLoop, hstop, processRecord, hsite, hu, hne', hw]

/-- A probe stub for the C9 witness: the main page of `c.example` yields one
raw address that cleans to a string without `@`. -/
def probeC9 : String → List String :=
  fun u => if u = "https://c.example" then [" noat?x "] else []

/-- Witness for C9: the record for `c.example` produces no matched row and no
unmatched line; only the progress event and the probe trace are recorded. -/
theorem all_addresses_filtered_out_no_output_witness :
    writeEmailToCSV { website := some "https://c.example" } (probeC9 "https://c.example") = [] ∧
    runLoop probeC9 1 none 0 [{ website := some "https://c.example" }] {} =
      runLoop probeC9 1 none 1 []
        ⟨[], [], [progressMsg "https://c.example" 0 1], ["https://c.example"]⟩ :=
  all_addresses_filtered_out_no_output probeC9 1 none 0
    { website := some "https://c.example" } [] {} "https://c.example"
    ⟨"https", "c.example", "/"⟩ (by decide) (by decide) (by decide) (by decide) rfl

theorem runLoop_stop_eq_take (probe : String → List String) (total k : Nat) :
    ∀ (l : List Record) (i : Nat) (acc : RunAcc),
      runLoop probe total (some k) i l acc =
        runLoop probe total none i (l.take (k + 1 - i)) acc := by
  intro l
  induction l with
  | nil => intro i acc; rw [List.take_nil]; simp [runLoop]
  | cons r rest ih =>
    intro i acc
    have hnone : stopped none i = false := rfl
    by_cases hik : k < i
    · have h0 : k + 1 - i = 0 := by omega
      have hstop : stopped (some k) i = true := by simp [stopped, hik]
      rw [h0, List.take_zero, runLoop_finish_of_stopped probe total hstop]
      rfl
    · have hstop : stopped (some k) i = false := by simp [stopped, hik]
      have hpos : k + 1 - i = (k - i) + 1 := by omega
      rw [hpos, List.take_succ_cons]
      cases hpr : processRecord probe total i r acc with
      | error acc2 => simp only [runLoop, hstop, hnone, if_false, hpr]
      | ok acc2 =>
        have harith : k + 1 - (i + 1) = k - i := by omega
        have hrec := ih (i + 1) acc2
        rw [harith] at hrec
        simp only [runLoop, hstop, hnone, if_false, hpr, hrec]

theorem scrapeContactPagesAux_isSome (probe : String → List String) (mainUrl : String)
    (base : Url) (hb : parseUrl mainUrl = some base) :
    ∀ paths : List String, (scrapeContactPagesAux probe mainUrl paths).isSome := by
  intro paths
  induction paths with
  | nil => rfl
  | cons p rest ih =>
    rw [scrapeContactPagesAux, hb]
    cases he : (probe (resolveUrl base p)).isEmpty
    · simp [he]
    · cases hc : scrapeContactPagesAux probe mainUrl rest with
      | none => rw [hc] at ih; exact absurd ih (by simp)
      | some pr => obtain ⟨res, tr⟩ := pr; simp [he, hc]

theorem scrapeContactPages_isSome (probe : String → List String) (mainUrl : String)
    (base : Url) (hb : parseUrl mainUrl = some base) :
    (scrapeContactPages probe mainUrl).isSome :=
  scrapeContactPagesAux_isSome probe mainUrl base hb contactPaths

theorem processRecord_not_error (probe : String → List String) (total i : Nat) (r : Record)
    (acc : RunAcc) (hok : ∀ site, siteOf r = some site → (parseUrl site).isSome) :
    ∀ acc2, processRecord probe total i r acc ≠ .error acc2 := by
  intro acc2 h
  cases hs : siteOf r with
  | none => simp [processRecord, hs] at h
  | some site =>
    cases hp : parseUrl site with
    | none =>
      have hip := hok site hs
      rw [hp] at hip
      simp at hip
    | some u =>
      cases hc : scrapeContactPages probe site with
      | none =>
        have hcs := scrapeContactPages_isSome probe site u hp
        rw [hc] at hcs
        simp at hcs
      | some pr =>
        obtain ⟨es1, tr⟩ := pr
        cases he0 : (probe site).isEmpty with
        | true =>
          cases he1 : es1.isEmpty with
          | true => simp [processRecord, hs, hp, he0, hc, he1] at h
          | false => simp [processRecord, hs, hp, he0, hc, he1] at h
        | false => simp [processRecord, hs, hp, he0] at h

theorem runLoop_no_abort (probe : String → List String) (total : Nat) (stopAfter : Option Nat) :
    ∀ (l : List Record) (i : Nat) (acc : RunAcc),
      (∀ r ∈ l, ∀ site, siteOf r = some site → (parseUrl site).isSome) →
      (runLoop probe total stopAfter i l acc).isScraping = false ∧
      (runLoop probe total stopAfter i l acc).aborted = false ∧
      ∃ ps, (runLoop probe total stopAfter i l acc).progress = ps ++ ["Scraping complete."] := by
  intro l
  induction l with
  | nil => intro i acc _; exact ⟨rfl, rfl, acc.progress, rfl⟩
  | cons r rest ih =>
    intro i acc hok
    by_cases hstop : stopped stopAfter i = true
    · rw [runLoop_finish_of_stopped probe total hstop]
      exact ⟨rfl, rfl, acc.progress, rfl⟩
    · have hstop' : stopped stopAfter i = false := by simpa using hstop
      cases hpr : processRecord probe total i r acc with
      | error acc2 =>
        exact absurd hpr
          (processRecord_not_error probe total i r acc (hok r (List.mem_cons_self _ _)) acc2)
      | ok acc2 =>
        have hrw : runLoop probe total stopAfter i (r :: rest) acc =
            runLoop probe total stopAfter (i + 1) rest acc2 := by
          simp [runLoop, hstop', hpr]
        rw [hrw]
        exact ih (i + 1) acc2 (fun r2 hr2 => hok r2 (List.mem_cons_of_mem _ hr2))

/-- Claim C2: if the stop flag is cleared after record `k` completes and before
record `k + 1` begins, the run equals the uncancelled run on the first `k + 1`
records alone (same matched rows, unmatched lines, progress events and probe
trace — so no record past `k` is probed or written), the active flag is false
afterwards, the run did not abort, and the final completion progress event is
still emitted. -/
theorem cancellation_after_k (probe : String → List String) (records : List Record) (k : Nat)
    (hk : k + 1 < records.length)
    (hok : ∀ r ∈ records.take (k + 1), ∀ site, siteOf r = some site → (parseUrl site).isSome) :
    scrapeWebsites probe records (some k) =
      runLoop probe records.length none 0 (records.take (k + 1)) {} ∧
    (scrapeWebsites probe records (some k)).isScraping = false ∧
    (scrapeWebsites probe records (some k)).aborted = false ∧
    ∃ ps, (scrapeWebsites probe records (some k)).progress = ps ++ ["Scraping complete."] := by
  have heq : scrapeWebsites probe records (some k) =
      runLoop probe records.length none 0 (records.take (k + 1)) {} := by
    rw [scrapeWebsites]
    have h := runLoop_stop_eq_take probe records.length k records 0 {}
    simpa using h
  refine ⟨heq, ?_⟩
  rw [heq]
  exact runLoop_no_abort probe records.length none (records.take (k + 1)) 0 {} hok

/-- First record for the C2 witness. -/
def recB0 : Record := { website := some "https://a.example" }

/-- Second record for the C2 witness; the stop request arrives before it. -/
def recB1 : Record := { website := some "https://b.example" }

/-- Witness for C2: stopping after record 0 of a two-record input yields the
uncancelled run on the first record alone, with the flag cleared and the
completion event emitted. -/
theorem cancellation_after_k_witness :
    scrapeWebsites (fun _ => []) [recB0, recB1] (some 0) =
      runLoop (fun _ => []) 2 none 0 [recB0] {} ∧
    (scrapeWebsites (fun _ => []) [recB0, recB1] (some 0)).isScraping = false ∧
    (scrapeWebsites (fun _ => []) [recB0, recB1] (some 0)).aborted = false ∧
    ∃ ps, (scrapeWebsites (fun _ => []) [recB0, recB1] (some 0)).progress =
      ps ++ ["Scraping complete."] :=
  cancellation_after_k (fun _ => []) [recB0, recB1] 0 (by decide)
    (by
      intro r hr site hsite
      have hr0 : r = recB0 := by
        simpa using hr
      subst hr0
      have h0 : siteOf recB0 = some "https://a.example" := by decide
      rw [h0] at hsite
      rw [← Option.some.inj hsite]
      decide)

/-- Claim C6 (amended): for a record with a non-empty combined address set, one
matched row is written per surviving address after cleaning and the `@`-filter
(the row emails are exactly the surviving addresses, in order), each row
preserves the record's Business Name, Category, Postal Code, Phone Number and
Website values, and preserves Address exactly when it is present and non-empty
— an absent or empty Address is written as `"No"`; the cells are serialized in
the literal order of the header
`Business Name,Category,Address,Postal Code,Phone Number,Website,Email`. -/
theorem matched_rows_spec (record : Record) (emails : List String) :
    (writeEmailToCSV record emails).map EmailRow.email =
      (emails.map cleanEmail).filter (fun e => e.data.contains '@') ∧
    (∀ row ∈ writeEmailToCSV record emails,
      row.businessName = record.businessName.getD "" ∧
      row.category = record.category.getD "" ∧
      row.postalCode = record.postalCode.getD "" ∧
      row.phoneNumber = record.phoneNumber.getD "" ∧
      row.website = record.website.getD "" ∧
      (∀ a, record.address = some a → a ≠ "" → row.address = a) ∧
      ((record.address = none ∨ record.address = some "") → row.address = "No") ∧
      rowFields row = [row.businessName, row.category, row.address, row.postalCode,
        row.phoneNumber, row.website, row.email]) ∧
    jsSplitOn matchedHeader "," =
      ["Business Name", "Category", "Address", "Postal Code", "Phone Number", "Website",
       "Email"] := by
  refine ⟨?_, ?_, by decide⟩
  · simp only [writeEmailToCSV, List.map_map]
    show List.map (fun e => e) _ = _
    exact List.map_id' _
  · intro row hrow
    simp only [writeEmailToCSV, List.mem_map, List.mem_filter] at hrow
    obtain ⟨e, ⟨_, _⟩, hrow⟩ := hrow
    subst hrow
    refine ⟨rfl, rfl, rfl, rfl, rfl, ?_, ?_, rfl⟩
    · intro a ha hane
      have hae : a.data.isEmpty = false := by
        cases a with
        | mk l =>
          cases l with
          | nil => exact absurd rfl hane
          | cons c cs => rfl
      simp [addressOrNo, ha, hae]
    · rintro (ha | ha) <;> simp [addressOrNo, ha]

/-- The record for the C6 witness: all metadata fields present and non-empty. -/
def recC6 : Record :=
  { businessName := some "Biz", category := some "Cat", address := some "Addr",
    postalCode := some "12345", phoneNumber := some "555", website := some "https://w.example" }

/-- Witness for C6: the row written for `recC6` preserves the Address field,
which is present and non-empty. -/
theorem matched_rows_spec_witness :
    (⟨"Biz", "Cat", "Addr", "12345", "555", "https://w.example", "e@x"⟩ : EmailRow).address =
      "Addr" :=
  (((matched_rows_spec recC6 ["e@x?q=1"]).2.1
    ⟨"Biz", "Cat", "Addr", "12345", "555", "https://w.example", "e@x"⟩ (by decide)).2.2.2.2.2.1
    "Addr" rfl (by decide))

end ScraperApp
